import Mathlib

/-!
Shallow embedding of the digit-recognition data-parsing core
(the `DataParser` class: grid partitioning, binarization, dataset
assembly, per-digit cache, dataset combination, diagnostic printing),
together with proofs of the specification claims C1 .. C10.

Modelling conventions:
- JS `number` values that are always small non-negative integers
  (digits, byte samples, counters) are `Nat`; pixel-buffer indices,
  which can be negative, are `Int`.
- A JS `Uint8Array` is modelled as a length together with a byte
  function; reading at an out-of-range index yields `none`
  (JS `undefined`), and `undefined > t` is `false` (`jsGreater`).
- `subImage` returning `undefined` for a rejected cell is `Option`.
- Thrown errors are `Except` / explicit error values.
- The process-wide mutable cache is explicit state threaded through
  `getDataSet`; the external decoder (file read + JPEG decode) and the
  external shuffler are parameters.
- The diagnostic sink of `printImage` is modelled by returning the
  list of emitted lines (each line a list of characters) in order.
-/

/-- Source constant `IMAGE_SIZE = 16` (`CELL_SIZE` in the spec). -/
def IMAGE_SIZE : Nat := 16

/-- Source constant `RGB_THRESHOLD = 60` (`INTENSITY_THRESHOLD` in the spec). -/
def RGB_THRESHOLD : Nat := 60

/-- Source constant `PIXEL_THRESHOLD = 30` (`MIN_WHITE_PIXELS` in the spec). -/
def PIXEL_THRESHOLD : Nat := 30

/-- Source constant `DATA_SET_SIZE = 1100` (`EXPECTED_SAMPLE_COUNT` in the spec). -/
def DATA_SET_SIZE : Nat := 1100

/-- Source constant `TRAINING_SET_SIZE = 550` (`TRAIN_SPLIT_POSITION` in the spec). -/
def TRAINING_SET_SIZE : Nat := 550

/-- JS `Uint8Array`: a fixed length and the byte at each in-range index. -/
structure Uint8Array where
  size : Nat
  byteAt : Nat → Nat

/-- Indexing a `Uint8Array` at an `Int` index, as in JS: an in-range read
yields the byte, any out-of-range read (negative or past the end) yields
`none` (JS `undefined`). -/
def uint8Get (a : Uint8Array) (i : Int) : Option Nat :=
  if 0 ≤ i ∧ i < (a.size : Int) then some (a.byteAt i.toNat) else none

/-- JS `v > t` where `v` may be `undefined`: `undefined > t` is `false`. -/
def jsGreater (v : Option Nat) (t : Nat) : Bool :=
  match v with
  | some x => t < x
  | none => false

/-- Source interface `IDigitMatrix { digit: number; matrix: number[] }`. -/
structure IDigitMatrix where
  digit : Nat
  matrix : List Nat
  deriving DecidableEq, Repr

/-- Source interface `IDigitDataSet { trainingSet; testingSet }`. -/
structure IDigitDataSet where
  trainingSet : List IDigitMatrix
  testingSet : List IDigitMatrix
  deriving DecidableEq, Repr

/-- Source interface `IImageData { height; width; data: Uint8Array }`. -/
structure IImageData where
  height : Nat
  width : Nat
  data : Uint8Array

/-- Errors thrown by the core: a missing/unreadable source image
(`ImageLoadError`) and a grid with too few cells
(`InsufficientCellsError`). -/
inductive DataError where
  | imageLoad
  | insufficientCells
  deriving DecidableEq, Repr

/-- Source `DataParser.coordinatesToIndex(x, y, columns)`:
`return y - 1 + x * columns * IMAGE_SIZE;`. -/
def coordinatesToIndex (x y columns : Int) : Int :=
  y - 1 + x * columns * (IMAGE_SIZE : Int)

/-- One entry of the binary matrix built by `DataParser.subImage`: the body
of its inner loop for local coordinates `(row, column)`. The buffer is read
at `imageDataIndex * 4` (4 channels per pixel, channel 0 consumed) and the
entry is `1` exactly when the sample strictly exceeds `RGB_THRESHOLD`. -/
def subImagePixel (startX startY columns : Int) (imageData : Uint8Array)
    (row column : Nat) : Nat :=
  let imageDataIndex :=
    coordinatesToIndex ((row : Int) + startX) ((column : Int) + startY) (columns - 1)
  if jsGreater (uint8Get imageData (imageDataIndex * 4)) RGB_THRESHOLD then 1 else 0

/-- The full binary matrix built by the loops of `DataParser.subImage`:
outer loop over the local row, inner loop over the local column. -/
def subImageMatrix (startX startY : Int) (size : Nat) (columns : Int)
    (imageData : Uint8Array) : List Nat :=
  (List.range size).flatMap fun row =>
    (List.range size).map fun column =>
      subImagePixel startX startY columns imageData row column

/-- Source `DataParser.subImage(startX, startY, size, columns, imageData)`:
builds the binary matrix and returns `undefined` (here `none`) when the
number of white pixels (entries equal to 1) is below `PIXEL_THRESHOLD`. -/
def subImage (startX startY : Int) (size : Nat) (columns : Int)
    (imageData : Uint8Array) : Option (List Nat) :=
  let m := subImageMatrix startX startY size columns imageData
  let whitePixelCount := m.count 1
  if whitePixelCount < PIXEL_THRESHOLD then none else some m

/-- The `subImage` call made by `DataParser.buildDataSet` for the grid cell
`(columnsIterator, rowsIterator) = (cell.1, cell.2)`:
`subImage(rowsIterator * IMAGE_SIZE, columnsIterator * IMAGE_SIZE,
IMAGE_SIZE, columns, imageData.data)`. -/
def cellImage (columns : Nat) (data : Uint8Array) (cell : Nat × Nat) :
    Option (List Nat) :=
  subImage ((cell.2 : Int) * (IMAGE_SIZE : Int)) ((cell.1 : Int) * (IMAGE_SIZE : Int))
    IMAGE_SIZE (columns : Int) data

/-- The grid cells in the exact enumeration order of the two nested loops
of `DataParser.buildDataSet`: outer `columnsIterator` from `0` to
`columns - 1`, inner `rowsIterator` from `0` to `rows - 1`. -/
def cellList (rows columns : Nat) : List (Nat × Nat) :=
  (List.range columns).flatMap fun columnsIterator =>
    (List.range rows).map fun rowsIterator => (columnsIterator, rowsIterator)

/-- The loop body of `DataParser.buildDataSet`: increment `matrixCounter`,
run `subImage` on the cell, skip a rejected cell, and append an accepted
cell's `IDigitMatrix` to the training list when
`matrixCounter < TRAINING_SET_SIZE`, otherwise to the testing list. -/
def buildStep (digit columns : Nat) (data : Uint8Array)
    (acc : Nat × List IDigitMatrix × List IDigitMatrix) (cell : Nat × Nat) :
    Nat × List IDigitMatrix × List IDigitMatrix :=
  let matrixCounter := acc.1 + 1
  match cellImage columns data cell with
  | none => (matrixCounter, acc.2.1, acc.2.2)
  | some image =>
    if matrixCounter < TRAINING_SET_SIZE then
      (matrixCounter, acc.2.1 ++ [⟨digit, image⟩], acc.2.2)
    else
      (matrixCounter, acc.2.1, acc.2.2 ++ [⟨digit, image⟩])

/-- Source `DataParser.buildDataSet(digit, imageData)`: computes
`rows = width / IMAGE_SIZE`, `columns = height / IMAGE_SIZE`, throws when
`DATA_SET_SIZE > rows * columns`, and otherwise folds the loop body over
the grid cells in enumeration order, starting from `matrixCounter = 0`
and empty training/testing lists. -/
def buildDataSet (digit : Nat) (imageData : IImageData) :
    Except DataError IDigitDataSet :=
  let rows := imageData.width / IMAGE_SIZE
  let columns := imageData.height / IMAGE_SIZE
  if rows * columns < DATA_SET_SIZE then
    Except.error DataError.insufficientCells
  else
    let r := (cellList rows columns).foldl (buildStep digit columns imageData.data) (0, [], [])
    Except.ok ⟨r.2.1, r.2.2⟩

/-- The process-wide static cache `DataParser.dataCache`, as explicit state:
a mapping from digit label to the stored dataset, `none` when absent. -/
structure DataCache where
  dataCache : Nat → Option IDigitDataSet

/-- Source `DataParser.getDataSet(digit)`, with the cache made explicit
state and the external image loading/decoding
(`DataParser.getImageData` over `fs` and `jpeg-js`) modelled as a
`decoder` parameter (`none` = missing/unreadable/undecodable resource).
Returns the result, the new cache state, and the number of decoder
invocations made by this call. -/
def getDataSet (decoder : Nat → Option IImageData) (digit : Nat)
    (cache : DataCache) :
    Except DataError IDigitDataSet × DataCache × Nat :=
  match cache.dataCache digit with
  | some ds => (Except.ok ds, cache, 0)
  | none =>
    match decoder digit with
    | none => (Except.error DataError.imageLoad, cache, 1)
    | some imageData =>
      match buildDataSet digit imageData with
      | Except.error e => (Except.error e, cache, 1)
      | Except.ok dataSet =>
        (Except.ok dataSet,
         ⟨fun d => if d = digit then some dataSet else cache.dataCache d⟩, 1)

/-- Source `DataParser.combineDataSets(dataSets, randomise)`: concatenate
all training sets in input order, likewise all testing sets, and shuffle
both (independently, via the external `knuth-shuffle` dependency, here a
parameter) only when `randomise` is true. -/
def combineDataSets (dataSets : List IDigitDataSet)
    (shuffle : List IDigitMatrix → List IDigitMatrix)
    (randomise : Bool) : IDigitDataSet :=
  let allTrainingSets := dataSets.foldl (fun acc ds => acc ++ ds.trainingSet) []
  let allTestingSets := dataSets.foldl (fun acc ds => acc ++ ds.testingSet) []
  if randomise then ⟨shuffle allTrainingSets, shuffle allTestingSets⟩
  else ⟨allTrainingSets, allTestingSets⟩

/-- The loop of `DataParser.printImage`, carrying the current index `i` and
the accumulated line `output`: append symbol or space for the element,
flush the line when `i % size = 0`, and flush the remaining line
unconditionally after the loop. Emitted lines are returned in order. -/
def printImageGo (threshold : Rat) (symbol : Char) (size : Nat) :
    Nat → List Char → List Rat → List (List Char)
  | _, output, [] => [output]
  | i, output, x :: rest =>
    let output2 := output ++ [if threshold < x then symbol else ' ']
    if i % size = 0 then output2 :: printImageGo threshold symbol size (i + 1) [] rest
    else printImageGo threshold symbol size (i + 1) output2 rest

/-- Source `DataParser.printImage(imageData, outputFunction, size,
threshold, symbol)`: the sink is modelled by returning the emitted lines. -/
def printImage (imageData : List Rat) (size : Nat) (threshold : Rat)
    (symbol : Char) : List (List Char) :=
  printImageGo threshold symbol size 0 [] imageData

/-- The `IDigitMatrix` that `buildDataSet digit` wraps around an accepted
cell, `none` for a rejected cell. -/
def acceptedAt (digit columns : Nat) (data : Uint8Array) (cell : Nat × Nat) :
    Option IDigitMatrix :=
  (cellImage columns data cell).map fun m => ⟨digit, m⟩

/-- The `IDigitMatrix` of a cell, with an (irrelevant) default for a
rejected cell; used to describe builds in which every cell is accepted. -/
def cellMatrix (digit columns : Nat) (data : Uint8Array) (cell : Nat × Nat) :
    IDigitMatrix :=
  ⟨digit, (cellImage columns data cell).getD []⟩

/-- The training-set contribution of the cells `l` when the position
counter has already reached `counter`: an accepted cell at 1-based
position `counter + 1 < TRAINING_SET_SIZE` contributes its matrix, every
other cell contributes nothing. -/
def trainPart (digit columns : Nat) (data : Uint8Array) :
    List (Nat × Nat) → Nat → List IDigitMatrix
  | [], _ => []
  | cell :: rest, counter =>
    (if counter + 1 < TRAINING_SET_SIZE then
      (acceptedAt digit columns data cell).toList
     else []) ++ trainPart digit columns data rest (counter + 1)

/-- The testing-set contribution of the cells `l` when the position counter
has already reached `counter`: an accepted cell at 1-based position
`counter + 1 ≥ TRAINING_SET_SIZE` contributes its matrix. -/
def testPart (digit columns : Nat) (data : Uint8Array) :
    List (Nat × Nat) → Nat → List IDigitMatrix
  | [], _ => []
  | cell :: rest, counter =>
    (if counter + 1 < TRAINING_SET_SIZE then []
     else (acceptedAt digit columns data cell).toList)
      ++ testPart digit columns data rest (counter + 1)

/-! ### Basic facts about the embedded definitions -/

theorem cellList_eq_product (rows columns : Nat) :
    cellList rows columns = (List.range columns) ×ˢ (List.range rows) := rfl

theorem cellList_length (rows columns : Nat) :
    (cellList rows columns).length = columns * rows := by
  rw [cellList_eq_product, List.length_product, List.length_range, List.length_range]

theorem mem_cellList {rows columns : Nat} {cell : Nat × Nat} :
    cell ∈ cellList rows columns ↔ cell.1 < columns ∧ cell.2 < rows := by
  rw [cellList_eq_product]
  cases cell
  rw [List.mem_product, List.mem_range, List.mem_range]

theorem cellList_nodup (rows columns : Nat) : (cellList rows columns).Nodup := by
  rw [cellList_eq_product]
  exact (List.nodup_range _).product (List.nodup_range _)

theorem subImageMatrix_length (startX startY : Int) (size : Nat) (columns : Int)
    (data : Uint8Array) :
    (subImageMatrix startX startY size columns data).length = size * size := by
  simp [subImageMatrix, List.length_flatMap, Function.comp_def]

theorem mem_subImageMatrix {startX startY : Int} {size : Nat} {columns : Int}
    {data : Uint8Array} {x : Nat}
    (hx : x ∈ subImageMatrix startX startY size columns data) : x = 0 ∨ x = 1 := by
  unfold subImageMatrix at hx
  rw [List.mem_flatMap] at hx
  obtain ⟨row, _, hx⟩ := hx
  rw [List.mem_map] at hx
  obtain ⟨col, _, hx⟩ := hx
  simp only [subImagePixel] at hx
  split at hx
  · right; exact hx.symm
  · left; exact hx.symm

theorem subImage_eq_some {startX startY : Int} {size : Nat} {columns : Int}
    {data : Uint8Array} {m : List Nat}
    (h : subImage startX startY size columns data = some m) :
    m = subImageMatrix startX startY size columns data ∧
      PIXEL_THRESHOLD ≤ m.count 1 := by
  simp only [subImage] at h
  split at h
  · exact absurd h (by simp)
  · next hcount =>
    obtain rfl := Option.some_injective _ h
    exact ⟨rfl, Nat.le_of_not_lt hcount⟩

theorem subImage_isSome_of_count {startX startY : Int} {size : Nat} {columns : Int}
    {data : Uint8Array}
    (h : PIXEL_THRESHOLD ≤ (subImageMatrix startX startY size columns data).count 1) :
    (subImage startX startY size columns data).isSome := by
  simp only [subImage]
  rw [if_neg (Nat.not_lt.mpr h)]
  rfl

/-! ### Characterization of the build loop -/

theorem buildStep_eq (digit columns : Nat) (data : Uint8Array)
    (c : Nat) (t e : List IDigitMatrix) (cell : Nat × Nat) :
    buildStep digit columns data (c, t, e) cell =
      (c + 1,
       t ++ (if c + 1 < TRAINING_SET_SIZE then
              (acceptedAt digit columns data cell).toList else []),
       e ++ (if c + 1 < TRAINING_SET_SIZE then []
             else (acceptedAt digit columns data cell).toList)) := by
  simp only [buildStep, acceptedAt]
  cases cellImage columns data cell with
  | none => by_cases h : c + 1 < TRAINING_SET_SIZE <;> simp [h]
  | some m => by_cases h : c + 1 < TRAINING_SET_SIZE <;> simp [h, Option.toList]

theorem foldl_buildStep (digit columns : Nat) (data : Uint8Array) :
    ∀ (l : List (Nat × Nat)) (c : Nat) (t e : List IDigitMatrix),
    l.foldl (buildStep digit columns data) (c, t, e) =
      (c + l.length,
       t ++ trainPart digit columns data l c,
       e ++ testPart digit columns data l c) := by
  intro l
  induction l with
  | nil => intro c t e; simp [trainPart, testPart]
  | cons cell rest ih =>
    intro c t e
    rw [List.foldl_cons, buildStep_eq, ih]
    simp only [trainPart, testPart, List.length_cons, List.append_assoc]
    refine Prod.ext ?one (Prod.ext ?two ?three)
    · simp; omega
    · rfl
    · rfl

theorem buildDataSet_ok_eq (digit : Nat) (img : IImageData)
    (h : ¬ (img.width / IMAGE_SIZE) * (img.height / IMAGE_SIZE) < DATA_SET_SIZE) :
    buildDataSet digit img =
      Except.ok
        ⟨trainPart digit (img.height / IMAGE_SIZE) img.data
           (cellList (img.width / IMAGE_SIZE) (img.height / IMAGE_SIZE)) 0,
         testPart digit (img.height / IMAGE_SIZE) img.data
           (cellList (img.width / IMAGE_SIZE) (img.height / IMAGE_SIZE)) 0⟩ := by
  simp only [buildDataSet, if_neg h, foldl_buildStep, List.nil_append]

theorem trainPart_append (digit columns : Nat) (data : Uint8Array) :
    ∀ (l1 l2 : List (Nat × Nat)) (c : Nat),
    trainPart digit columns data (l1 ++ l2) c =
      trainPart digit columns data l1 c ++ trainPart digit columns data l2 (c + l1.length) := by
  intro l1
  induction l1 with
  | nil => intro l2 c; simp [trainPart]
  | cons cell rest ih =>
    intro l2 c
    show trainPart digit columns data (cell :: (rest ++ l2)) c = _
    simp only [trainPart, List.length_cons, List.append_assoc]
    rw [ih]
    have h2 : c + 1 + rest.length = c + (rest.length + 1) := by omega
    rw [h2]

theorem testPart_append (digit columns : Nat) (data : Uint8Array) :
    ∀ (l1 l2 : List (Nat × Nat)) (c : Nat),
    testPart digit columns data (l1 ++ l2) c =
      testPart digit columns data l1 c ++ testPart digit columns data l2 (c + l1.length) := by
  intro l1
  induction l1 with
  | nil => intro l2 c; simp [testPart]
  | cons cell rest ih =>
    intro l2 c
    show testPart digit columns data (cell :: (rest ++ l2)) c = _
    simp only [testPart, List.length_cons, List.append_assoc]
    rw [ih]
    have h2 : c + 1 + rest.length = c + (rest.length + 1) := by omega
    rw [h2]

theorem trainPart_all_accepted (digit columns : Nat) (data : Uint8Array) :
    ∀ (l : List (Nat × Nat)) (c : Nat),
    (∀ cell ∈ l, (cellImage columns data cell).isSome) →
    trainPart digit columns data l c =
      (l.take (TRAINING_SET_SIZE - 1 - c)).map (cellMatrix digit columns data) := by
  intro l
  induction l with
  | nil => intro c _; simp [trainPart]
  | cons cell rest ih =>
    intro c hacc
    have hcell : (cellImage columns data cell).isSome := hacc cell (by simp)
    obtain ⟨m, hm⟩ := Option.isSome_iff_exists.mp hcell
    have hrest : ∀ x ∈ rest, (cellImage columns data x).isSome := by
      intro x hx; exact hacc x (by simp [hx])
    have ih2 := ih (c + 1) hrest
    simp only [trainPart]
    by_cases h : c + 1 < TRAINING_SET_SIZE
    · rw [if_pos h]
      have htake : TRAINING_SET_SIZE - 1 - c = (TRAINING_SET_SIZE - 1 - (c + 1)) + 1 := by
        simp only [TRAINING_SET_SIZE] at h ⊢; omega
      rw [htake, List.take_succ_cons, List.map_cons, ih2]
      simp [acceptedAt, cellMatrix, hm]
    · rw [if_neg h]
      have htake0 : TRAINING_SET_SIZE - 1 - c = 0 := by
        simp only [TRAINING_SET_SIZE] at h ⊢; omega
      have htake1 : TRAINING_SET_SIZE - 1 - (c + 1) = 0 := by
        simp only [TRAINING_SET_SIZE] at h ⊢; omega
      rw [htake1] at ih2
      rw [htake0, ih2]
      simp

theorem testPart_all_accepted (digit columns : Nat) (data : Uint8Array) :
    ∀ (l : List (Nat × Nat)) (c : Nat),
    (∀ cell ∈ l, (cellImage columns data cell).isSome) →
    testPart digit columns data l c =
      (l.drop (TRAINING_SET_SIZE - 1 - c)).map (cellMatrix digit columns data) := by
  intro l
  induction l with
  | nil => intro c _; simp [testPart]
  | cons cell rest ih =>
    intro c hacc
    have hcell : (cellImage columns data cell).isSome := hacc cell (by simp)
    obtain ⟨m, hm⟩ := Option.isSome_iff_exists.mp hcell
    have hrest : ∀ x ∈ rest, (cellImage columns data x).isSome := by
      intro x hx; exact hacc x (by simp [hx])
    have ih2 := ih (c + 1) hrest
    simp only [testPart]
    by_cases h : c + 1 < TRAINING_SET_SIZE
    · rw [if_pos h]
      have htake : TRAINING_SET_SIZE - 1 - c = (TRAINING_SET_SIZE - 1 - (c + 1)) + 1 := by
        simp only [TRAINING_SET_SIZE] at h ⊢; omega
      rw [htake, List.drop_succ_cons, ih2]
      simp
    · rw [if_neg h]
      have htake0 : TRAINING_SET_SIZE - 1 - c = 0 := by
        simp only [TRAINING_SET_SIZE] at h ⊢; omega
      have htake1 : TRAINING_SET_SIZE - 1 - (c + 1) = 0 := by
        simp only [TRAINING_SET_SIZE] at h ⊢; omega
      rw [htake1] at ih2
      rw [htake0, ih2]
      simp [acceptedAt, cellMatrix, hm]

/-! ### Claim C5: insufficient-cells failure -/

/-- C5: `build(label, image)` fails with `InsufficientCellsError` exactly
when `rows * columns < EXPECTED_SAMPLE_COUNT = 1100` (with
`rows = width / CELL_SIZE`, `columns = height / CELL_SIZE`), and on this
failure no partial dataset is returned, while otherwise a full dataset is
returned. (In the pure embedding the check precedes the cell loop by
construction: the error branch never evaluates the fold.) -/
theorem buildDataSet_insufficient_iff (digit : Nat) (img : IImageData)
    (_hw : IMAGE_SIZE ∣ img.width) (_hh : IMAGE_SIZE ∣ img.height) :
    (buildDataSet digit img = Except.error DataError.insufficientCells ↔
      (img.width / IMAGE_SIZE) * (img.height / IMAGE_SIZE) < DATA_SET_SIZE) ∧
    (¬ (img.width / IMAGE_SIZE) * (img.height / IMAGE_SIZE) < DATA_SET_SIZE →
      ∃ ds, buildDataSet digit img = Except.ok ds) := by
  by_cases hlt : (img.width / IMAGE_SIZE) * (img.height / IMAGE_SIZE) < DATA_SET_SIZE
  · constructor
    · simp [buildDataSet, hlt]
    · intro hc; exact absurd hlt hc
  · constructor
    · rw [buildDataSet_ok_eq digit img hlt]
      simp [hlt]
    · intro _
      exact ⟨_, buildDataSet_ok_eq digit img hlt⟩

/-- Closed witness for the hypotheses of `buildDataSet_insufficient_iff`,
at a 1-by-1-cell image (grid of 1 cell, fewer than 1100). -/
theorem buildDataSet_insufficient_iff_witness :
    IMAGE_SIZE ∣ 16 ∧ IMAGE_SIZE ∣ 16 ∧
    (buildDataSet 3 ⟨16, 16, ⟨0, fun _ => 0⟩⟩ = Except.error DataError.insufficientCells ↔
      (16 / IMAGE_SIZE) * (16 / IMAGE_SIZE) < DATA_SET_SIZE) := by
  refine ⟨⟨1, rfl⟩, ⟨1, rfl⟩, ?_⟩
  exact (buildDataSet_insufficient_iff 3 ⟨16, 16, ⟨0, fun _ => 0⟩⟩ ⟨1, rfl⟩ ⟨1, rfl⟩).1

/-! ### Claim C1: the positional 549/551 split -/

/-- C1: for every label and every (valid) raw image whose grid contains
exactly 1100 cells, all of which the binarizer accepts, the build returns
a dataset whose training set consists of the cells at 1-based grid
positions 1 .. 549 (in enumeration order) and whose testing set consists
of positions 550 .. 1100, with 549 and 551 elements respectively. -/
theorem buildDataSet_split_549_551 (digit : Nat) (img : IImageData)
    (_hw : IMAGE_SIZE ∣ img.width) (_hh : IMAGE_SIZE ∣ img.height)
    (hcount : (img.width / IMAGE_SIZE) * (img.height / IMAGE_SIZE) = DATA_SET_SIZE)
    (hacc : ∀ cell ∈ cellList (img.width / IMAGE_SIZE) (img.height / IMAGE_SIZE),
      (cellImage (img.height / IMAGE_SIZE) img.data cell).isSome) :
    ∃ ds, buildDataSet digit img = Except.ok ds ∧
      ds.trainingSet =
        ((cellList (img.width / IMAGE_SIZE) (img.height / IMAGE_SIZE)).take 549).map
          (cellMatrix digit (img.height / IMAGE_SIZE) img.data) ∧
      ds.testingSet =
        ((cellList (img.width / IMAGE_SIZE) (img.height / IMAGE_SIZE)).drop 549).map
          (cellMatrix digit (img.height / IMAGE_SIZE) img.data) ∧
      ds.trainingSet.length = 549 ∧
      ds.testingSet.length = 551 := by
  have hnlt : ¬ (img.width / IMAGE_SIZE) * (img.height / IMAGE_SIZE) < DATA_SET_SIZE := by
    rw [hcount]
    exact lt_irrefl _
  refine ⟨_, buildDataSet_ok_eq digit img hnlt, ?_⟩
  have hlen : (cellList (img.width / IMAGE_SIZE) (img.height / IMAGE_SIZE)).length = 1100 := by
    rw [cellList_length, Nat.mul_comm]
    exact hcount
  have h549 : TRAINING_SET_SIZE - 1 - 0 = 549 := by norm_num [TRAINING_SET_SIZE]
  have htr := trainPart_all_accepted digit (img.height / IMAGE_SIZE) img.data
    (cellList (img.width / IMAGE_SIZE) (img.height / IMAGE_SIZE)) 0 hacc
  have hte := testPart_all_accepted digit (img.height / IMAGE_SIZE) img.data
    (cellList (img.width / IMAGE_SIZE) (img.height / IMAGE_SIZE)) 0 hacc
  rw [h549] at htr hte
  refine ⟨htr, hte, ?_, ?_⟩
  · rw [htr, List.length_map, List.length_take, hlen]
    omega
  · rw [hte, List.length_map, List.length_drop, hlen]

/-! ### A concrete all-accepted 1100-cell image (witness data) -/

/-- Witness buffer: 60 bytes, all of value 255. -/
def bufA : Uint8Array := ⟨60, fun _ => 255⟩

/-- Witness image: 17600 x 16 declared pixels, so the grid has
`rows = 1100`, `columns = 1`, exactly 1100 cells. -/
def imgA : IImageData := ⟨16, 17600, bufA⟩

theorem subImageMatrix_congr {sX1 sX2 sY1 sY2 c1 c2 : Int} (size : Nat)
    (data : Uint8Array)
    (h : ∀ row col : Nat, subImagePixel sX1 sY1 c1 data row col =
      subImagePixel sX2 sY2 c2 data row col) :
    subImageMatrix sX1 sY1 size c1 data = subImageMatrix sX2 sY2 size c2 data := by
  unfold subImageMatrix
  congr 1
  funext row
  congr 1
  funext col
  exact h row col

theorem subImage_congr {sX1 sX2 sY1 sY2 c1 c2 : Int} (size : Nat)
    (data : Uint8Array)
    (h : ∀ row col : Nat, subImagePixel sX1 sY1 c1 data row col =
      subImagePixel sX2 sY2 c2 data row col) :
    subImage sX1 sY1 size c1 data = subImage sX2 sY2 size c2 data := by
  unfold subImage
  rw [subImageMatrix_congr size data h]

/-- In a one-column grid every cell reads the same buffer positions:
the vertical offset is multiplied by `columns - 1 = 0`. -/
theorem cellImage_columns_one (data : Uint8Array) (ri : Nat) :
    cellImage 1 data (0, ri) = cellImage 1 data (0, 0) := by
  unfold cellImage
  apply subImage_congr
  intro row col
  simp only [subImagePixel, coordinatesToIndex]
  norm_num

set_option maxRecDepth 8000 in
theorem imgA_acc : ∀ cell ∈ cellList 1100 1, (cellImage 1 bufA cell).isSome := by
  intro cell hc
  rw [mem_cellList] at hc
  obtain ⟨ci, ri⟩ := cell
  have h1 : ci = 0 := by omega
  subst h1
  rw [cellImage_columns_one]
  decide

/-- The matrix common to all cells of `imgA`. -/
def dmA : IDigitMatrix := cellMatrix 5 1 bufA (0, 0)

theorem cellMatrix_imgA {cell : Nat × Nat} (hc : cell ∈ cellList 1100 1) :
    cellMatrix 5 1 bufA cell = dmA := by
  rw [mem_cellList] at hc
  obtain ⟨ci, ri⟩ := cell
  have h1 : ci = 0 := by omega
  subst h1
  unfold cellMatrix dmA cellMatrix
  rw [cellImage_columns_one]

theorem build_imgA :
    buildDataSet 5 imgA =
      Except.ok ⟨List.replicate 549 dmA, List.replicate 551 dmA⟩ := by
  have hnlt : ¬ (imgA.width / IMAGE_SIZE) * (imgA.height / IMAGE_SIZE) < DATA_SET_SIZE := by
    norm_num [imgA, IMAGE_SIZE, DATA_SET_SIZE]
  rw [buildDataSet_ok_eq 5 imgA hnlt]
  have hw : imgA.width / IMAGE_SIZE = 1100 := by norm_num [imgA, IMAGE_SIZE]
  have hh : imgA.height / IMAGE_SIZE = 1 := by norm_num [imgA, IMAGE_SIZE]
  have hd : imgA.data = bufA := rfl
  rw [hw, hh, hd]
  rw [trainPart_all_accepted 5 1 bufA (cellList 1100 1) 0 imgA_acc,
    testPart_all_accepted 5 1 bufA (cellList 1100 1) 0 imgA_acc]
  have h549 : TRAINING_SET_SIZE - 1 - 0 = 549 := by norm_num [TRAINING_SET_SIZE]
  rw [h549]
  have hlen : (cellList 1100 1).length = 1100 := by
    rw [cellList_length]
  have htr : ((cellList 1100 1).take 549).map (cellMatrix 5 1 bufA) =
      List.replicate 549 dmA := by
    have hmem : ∀ b ∈ ((cellList 1100 1).take 549).map (cellMatrix 5 1 bufA), b = dmA := by
      intro b hb
      rw [List.mem_map] at hb
      obtain ⟨cell, hcell, rfl⟩ := hb
      exact cellMatrix_imgA (List.mem_of_mem_take hcell)
    have he := List.eq_replicate_of_mem hmem
    rw [he, List.length_map, List.length_take, hlen]
    congr 1
  have hte : ((cellList 1100 1).drop 549).map (cellMatrix 5 1 bufA) =
      List.replicate 551 dmA := by
    have hmem : ∀ b ∈ ((cellList 1100 1).drop 549).map (cellMatrix 5 1 bufA), b = dmA := by
      intro b hb
      rw [List.mem_map] at hb
      obtain ⟨cell, hcell, rfl⟩ := hb
      exact cellMatrix_imgA (List.mem_of_mem_drop hcell)
    have he := List.eq_replicate_of_mem hmem
    rw [he, List.length_map, List.length_drop, hlen]
  rw [htr, hte]

/-- Closed witness for the hypotheses of `buildDataSet_split_549_551`:
`imgA` has exactly 1100 grid cells and the binarizer accepts all of them. -/
theorem buildDataSet_split_549_551_witness :
    (IMAGE_SIZE ∣ imgA.width) ∧ (IMAGE_SIZE ∣ imgA.height) ∧
    (imgA.width / IMAGE_SIZE) * (imgA.height / IMAGE_SIZE) = DATA_SET_SIZE ∧
    (∀ cell ∈ cellList (imgA.width / IMAGE_SIZE) (imgA.height / IMAGE_SIZE),
      (cellImage (imgA.height / IMAGE_SIZE) imgA.data cell).isSome) ∧
    ∃ ds, buildDataSet 5 imgA = Except.ok ds ∧
      ds.trainingSet =
        ((cellList (imgA.width / IMAGE_SIZE) (imgA.height / IMAGE_SIZE)).take 549).map
          (cellMatrix 5 (imgA.height / IMAGE_SIZE) imgA.data) ∧
      ds.testingSet =
        ((cellList (imgA.width / IMAGE_SIZE) (imgA.height / IMAGE_SIZE)).drop 549).map
          (cellMatrix 5 (imgA.height / IMAGE_SIZE) imgA.data) ∧
      ds.trainingSet.length = 549 ∧
      ds.testingSet.length = 551 := by
  have h1 : IMAGE_SIZE ∣ imgA.width := ⟨1100, rfl⟩
  have h2 : IMAGE_SIZE ∣ imgA.height := ⟨1, rfl⟩
  have h3 : (imgA.width / IMAGE_SIZE) * (imgA.height / IMAGE_SIZE) = DATA_SET_SIZE := by
    norm_num [imgA, IMAGE_SIZE, DATA_SET_SIZE]
  have h4 : ∀ cell ∈ cellList (imgA.width / IMAGE_SIZE) (imgA.height / IMAGE_SIZE),
      (cellImage (imgA.height / IMAGE_SIZE) imgA.data cell).isSome := imgA_acc
  exact ⟨h1, h2, h3, h4, buildDataSet_split_549_551 5 imgA h1 h2 h3 h4⟩

/-! ### Claim C8: dataset combination -/

theorem foldl_append_eq {α β : Type} (proj : β → List α) :
    ∀ (l : List β) (acc : List α),
    l.foldl (fun a ds => a ++ proj ds) acc = acc ++ (l.map proj).flatten := by
  intro l
  induction l with
  | nil => intro acc; simp
  | cons ds rest ih =>
    intro acc
    rw [List.foldl_cons, ih]
    simp

/-- C8: with `randomize = false`, `combineDataSets` returns exactly the
concatenation of the inputs' training sets in input order and the
concatenation of their testing sets in input order. (The embedding is a
pure function of its inputs: it can mutate neither the input datasets nor
the cache, and the result is independent of the shuffler.) -/
theorem combineDataSets_no_randomise (dataSets : List IDigitDataSet)
    (shuffle : List IDigitMatrix → List IDigitMatrix) :
    combineDataSets dataSets shuffle false =
      ⟨(dataSets.map IDigitDataSet.trainingSet).flatten,
       (dataSets.map IDigitDataSet.testingSet).flatten⟩ := by
  simp only [combineDataSets, if_neg Bool.false_ne_true]
  rw [foldl_append_eq IDigitDataSet.trainingSet dataSets [],
    foldl_append_eq IDigitDataSet.testingSet dataSets []]
  simp

/-! ### Claim C9: the diagnostic printer -/

/-- C9 as stated is false: `printImage` does not emit rows of exactly
`size` characters. It flushes whenever the 0-based element index is
divisible by `size`, which happens already at index 0, so the first
emitted line has exactly 1 character; a final (possibly short) line is
always flushed after the loop. Concretely, for the 4-element matrix
`[1,1,1,1]` with `size = 2` the emitted lines have lengths 1, 2, 1. -/
theorem printImage_not_size_aligned :
    ¬ (∀ line ∈ printImage [1, 1, 1, 1] 2 0 (Char.ofNat 35), line.length = 2) := by
  decide

/-- C9 amended: `printImage` writes the textual rendering of the matrix
to the sink, each element contributing the symbol when it is strictly
greater than the threshold and a space otherwise, in element order; the
rendering is split into lines by flushing the accumulated line after
every element whose 0-based index is divisible by `size` and flushing
the remainder once after the loop (so the lines are not all of length
`size`: the first flushed line holds a single character). -/
theorem printImage_renders (imageData : List Rat) (size : Nat)
    (threshold : Rat) (symbol : Char) :
    (printImage imageData size threshold symbol).flatten =
      imageData.map (fun x => if threshold < x then symbol else ' ') := by
  suffices h : ∀ (l : List Rat) (i : Nat) (output : List Char),
      (printImageGo threshold symbol size i output l).flatten =
        output ++ l.map (fun x => if threshold < x then symbol else ' ') by
    have h2 := h imageData 0 []
    rw [List.nil_append] at h2
    exact h2
  intro l
  induction l with
  | nil => intro i output; simp [printImageGo]
  | cons x rest ih =>
    intro i output
    simp only [printImageGo, List.map_cons]
    by_cases hi : i % size = 0
    · rw [if_pos hi]
      simp only [List.flatten_cons, ih]
      simp
    · rw [if_neg hi]
      rw [ih]
      simp

/-! ### Claims C3 and C7: the per-digit cache -/

theorem getDataSet_hit_eq (decoder : Nat → Option IImageData) (digit : Nat)
    (st : DataCache) (ds : IDigitDataSet) (hc : st.dataCache digit = some ds) :
    getDataSet decoder digit st = (Except.ok ds, st, 0) := by
  unfold getDataSet
  rw [hc]

theorem getDataSet_load_fail_eq (decoder : Nat → Option IImageData) (digit : Nat)
    (st : DataCache) (hc : st.dataCache digit = none)
    (hdec : decoder digit = none) :
    getDataSet decoder digit st = (Except.error DataError.imageLoad, st, 1) := by
  unfold getDataSet
  rw [hc, hdec]

theorem getDataSet_build_eq (decoder : Nat → Option IImageData) (digit : Nat)
    (st : DataCache) (imageData : IImageData) (hc : st.dataCache digit = none)
    (hdec : decoder digit = some imageData) :
    getDataSet decoder digit st =
      match buildDataSet digit imageData with
      | Except.error e => (Except.error e, st, 1)
      | Except.ok dataSet =>
        (Except.ok dataSet,
         ⟨fun d => if d = digit then some dataSet else st.dataCache d⟩, 1) := by
  unfold getDataSet
  rw [hc, hdec]

/-- C3: when a call of `getDataSet` returns a dataset, an immediately
following call for the same label returns the very same stored dataset,
leaves the cache state unchanged, and performs zero decoder invocations
(so the decode-and-build path runs at most once per label: every later
call is in this same cache-hit situation again). -/
theorem getDataSet_cache_hit (decoder : Nat → Option IImageData) (digit : Nat)
    (st st2 : DataCache) (ds : IDigitDataSet) (n : Nat)
    (h : getDataSet decoder digit st = (Except.ok ds, st2, n)) :
    getDataSet decoder digit st2 = (Except.ok ds, st2, 0) := by
  have hcache : st2.dataCache digit = some ds := by
    cases hc : st.dataCache digit with
    | some ds0 =>
      rw [getDataSet_hit_eq decoder digit st ds0 hc] at h
      simp only [Prod.mk.injEq, Except.ok.injEq] at h
      obtain ⟨h1, h2, _⟩ := h
      rw [← h2, hc, h1]
    | none =>
      cases hdec : decoder digit with
      | none =>
        rw [getDataSet_load_fail_eq decoder digit st hc hdec] at h
        simp at h
      | some imageData =>
        rw [getDataSet_build_eq decoder digit st imageData hc hdec] at h
        cases hb : buildDataSet digit imageData with
        | error e =>
          rw [hb] at h
          simp at h
        | ok dataSet =>
          rw [hb] at h
          simp only [Prod.mk.injEq, Except.ok.injEq] at h
          obtain ⟨h1, h2, _⟩ := h
          rw [← h2]
          simp [h1]
  exact getDataSet_hit_eq decoder digit st2 ds hcache

/-- Closed witness for `getDataSet_cache_hit`: starting from the empty
cache with a decoder that always yields `imgA`, the first call for label
5 succeeds (decoding once), and the theorem applies to it. -/
theorem getDataSet_cache_hit_witness :
    (getDataSet (fun _ => some imgA) 5 ⟨fun _ => none⟩ =
      (Except.ok (⟨List.replicate 549 dmA, List.replicate 551 dmA⟩ : IDigitDataSet),
       ⟨fun d => if d = 5 then
          some (⟨List.replicate 549 dmA, List.replicate 551 dmA⟩ : IDigitDataSet)
        else none⟩, 1)) ∧
    getDataSet (fun _ => some imgA) 5
        ⟨fun d => if d = 5 then
          some (⟨List.replicate 549 dmA, List.replicate 551 dmA⟩ : IDigitDataSet)
        else none⟩ =
      (Except.ok (⟨List.replicate 549 dmA, List.replicate 551 dmA⟩ : IDigitDataSet),
       ⟨fun d => if d = 5 then
          some (⟨List.replicate 549 dmA, List.replicate 551 dmA⟩ : IDigitDataSet)
        else none⟩, 0) := by
  have h1 : getDataSet (fun _ => some imgA) 5 ⟨fun _ => none⟩ =
      (Except.ok (⟨List.replicate 549 dmA, List.replicate 551 dmA⟩ : IDigitDataSet),
       ⟨fun d => if d = 5 then
          some (⟨List.replicate 549 dmA, List.replicate 551 dmA⟩ : IDigitDataSet)
        else none⟩, 1) := by
    rw [getDataSet_build_eq (fun _ => some imgA) 5 ⟨fun _ => none⟩ imgA rfl rfl,
      build_imgA]
  exact ⟨h1, getDataSet_cache_hit (fun _ => some imgA) 5 ⟨fun _ => none⟩ _ _ 1 h1⟩

/-- C7: when `getDataSet` fails (missing/unreadable/undecodable resource
or an insufficient grid), the cache state is returned unchanged and holds
no entry for the label, and a subsequent call for the same label performs
a fresh decoder invocation (a full re-attempt, which can succeed once the
resource issue is fixed). -/
theorem getDataSet_error_cache_unchanged (decoder : Nat → Option IImageData)
    (digit : Nat) (st st2 : DataCache) (e : DataError) (n : Nat)
    (h : getDataSet decoder digit st = (Except.error e, st2, n)) :
    st2 = st ∧ st2.dataCache digit = none ∧
      (∀ decoder2 : Nat → Option IImageData,
        (getDataSet decoder2 digit st2).2.2 = 1) := by
  have hmiss : st.dataCache digit = none := by
    cases hc : st.dataCache digit with
    | none => rfl
    | some ds0 =>
      rw [getDataSet_hit_eq decoder digit st ds0 hc] at h
      simp at h
  have hst : st2 = st := by
    cases hdec : decoder digit with
    | none =>
      rw [getDataSet_load_fail_eq decoder digit st hmiss hdec] at h
      simp only [Prod.mk.injEq] at h
      exact h.2.1.symm
    | some imageData =>
      rw [getDataSet_build_eq decoder digit st imageData hmiss hdec] at h
      cases hb : buildDataSet digit imageData with
      | error e2 =>
        rw [hb] at h
        simp only [Prod.mk.injEq] at h
        exact h.2.1.symm
      | ok dataSet =>
        rw [hb] at h
        simp at h
  subst hst
  refine ⟨rfl, hmiss, ?_⟩
  intro decoder2
  cases hdec2 : decoder2 digit with
  | none => rw [getDataSet_load_fail_eq decoder2 digit st2 hmiss hdec2]
  | some imageData =>
    rw [getDataSet_build_eq decoder2 digit st2 imageData hmiss hdec2]
    cases buildDataSet digit imageData with
    | error e2 => rfl
    | ok dataSet => rfl

/-- Closed witness for `getDataSet_error_cache_unchanged`: with a decoder
that has no image for any label, the call fails with `ImageLoadError` and
the empty cache is returned unchanged. -/
theorem getDataSet_error_cache_unchanged_witness :
    getDataSet (fun _ => none) 7 ⟨fun _ => none⟩ =
      (Except.error DataError.imageLoad, ⟨fun _ => none⟩, 1) ∧
    ((⟨fun _ => none⟩ : DataCache) = ⟨fun _ => none⟩ ∧
      (⟨fun _ => none⟩ : DataCache).dataCache 7 = none ∧
      (∀ decoder2 : Nat → Option IImageData,
        (getDataSet decoder2 7 ⟨fun _ => none⟩).2.2 = 1)) := by
  have h1 : getDataSet (fun _ => none) 7 ⟨fun _ => none⟩ =
      (Except.error DataError.imageLoad, ⟨fun _ => none⟩, 1) := rfl
  exact ⟨h1, getDataSet_error_cache_unchanged (fun _ => none) 7 _ _
    DataError.imageLoad 1 h1⟩

/-! ### Row-major indexing into the binarized matrix -/

theorem flatMap_blocks_length {α : Type} (f : Nat → List α) (m : Nat)
    (hf : ∀ i, (f i).length = m) (n : Nat) :
    ((List.range n).flatMap f).length = n * m := by
  rw [List.length_flatMap]
  have hmem : ∀ b ∈ (List.range n).map (List.length ∘ f), b = m := by
    intro b hb
    rw [List.mem_map] at hb
    obtain ⟨i, _, rfl⟩ := hb
    exact hf i
  rw [List.eq_replicate_of_mem hmem, List.length_map, List.length_range,
    List.sum_replicate, smul_eq_mul]

theorem flatMap_blocks_getElem {α : Type} (f : Nat → List α) (m : Nat)
    (hf : ∀ i, (f i).length = m) :
    ∀ (n r c : Nat), r < n → c < m →
      ((List.range n).flatMap f)[r * m + c]? = (f r)[c]? := by
  intro n
  induction n with
  | zero => intro r c hr _; exact absurd hr (Nat.not_lt_zero r)
  | succ n ih =>
    intro r c hr hc
    rw [List.range_succ, List.flatMap_append]
    by_cases h : r < n
    · have hidx : r * m + c < ((List.range n).flatMap f).length := by
        rw [flatMap_blocks_length f m hf n]
        have h1 : r * m + c < (r + 1) * m := by
          rw [Nat.succ_mul]
          omega
        have h2 : (r + 1) * m ≤ n * m := Nat.mul_le_mul_right m h
        omega
      rw [List.getElem?_append, if_pos hidx]
      exact ih r c h hc
    · have hr2 : r = n := by omega
      subst hr2
      have hlen : ((List.range r).flatMap f).length = r * m :=
        flatMap_blocks_length f m hf r
      rw [List.getElem?_append_right (by omega), hlen]
      simp

theorem subImageMatrix_getElem (startX startY columns : Int) (data : Uint8Array)
    (row col : Nat) (hr : row < IMAGE_SIZE) (hc : col < IMAGE_SIZE) :
    (subImageMatrix startX startY IMAGE_SIZE columns data)[row * IMAGE_SIZE + col]? =
      some (subImagePixel startX startY columns data row col) := by
  unfold subImageMatrix
  rw [flatMap_blocks_getElem _ IMAGE_SIZE (fun i => by simp) IMAGE_SIZE row col hr hc]
  rw [List.getElem?_map, List.getElem?_range hc]
  rfl

/-! ### Claim C6: the exact pixel-offset formula -/

/-- C6: for the cell at grid coordinates
`(rowsIterator, columnsIterator)` and cell-local pixel `(row, column)`,
the binarizer reads the buffer at exactly
`byteOffset = pixelIndex * 4` with
`pixelIndex = (globalY - 1) + globalX * (columns - 1) * 16`,
`globalX = row + rowsIterator * 16`, `globalY = column + columnsIterator * 16`
(only channel 0 is consumed), `buildDataSet` invokes `subImage` for that
cell with `startX = rowsIterator * IMAGE_SIZE`,
`startY = columnsIterator * IMAGE_SIZE` in the fixed enumeration order
(outer loop over `columnsIterator`, inner over `rowsIterator`), and the
matrix entry at row-major local position `row * IMAGE_SIZE + column` is
that pixel. -/
theorem coordinatesToIndex_formula (rowsIterator columnsIterator row column
    columns : Nat) (data : Uint8Array) :
    (coordinatesToIndex ((row : Int) + (rowsIterator : Int) * (IMAGE_SIZE : Int))
        ((column : Int) + (columnsIterator : Int) * (IMAGE_SIZE : Int))
        ((columns : Int) - 1) =
      ((column : Int) + (columnsIterator : Int) * 16 - 1) +
        ((row : Int) + (rowsIterator : Int) * 16) * ((columns : Int) - 1) * 16) ∧
    (subImagePixel ((rowsIterator : Int) * (IMAGE_SIZE : Int))
        ((columnsIterator : Int) * (IMAGE_SIZE : Int)) (columns : Int)
        data row column =
      if jsGreater (uint8Get data
          (((((column : Int) + (columnsIterator : Int) * 16 - 1) +
            ((row : Int) + (rowsIterator : Int) * 16) *
              ((columns : Int) - 1) * 16)) * 4))
          RGB_THRESHOLD then 1 else 0) ∧
    (cellImage columns data (columnsIterator, rowsIterator) =
      subImage ((rowsIterator : Int) * (IMAGE_SIZE : Int))
        ((columnsIterator : Int) * (IMAGE_SIZE : Int)) IMAGE_SIZE
        (columns : Int) data) ∧
    (cellList (rowsIterator + 1) (columnsIterator + 1) =
      (List.range (columnsIterator + 1)).flatMap fun ci =>
        (List.range (rowsIterator + 1)).map fun ri => (ci, ri)) ∧
    (row < IMAGE_SIZE → column < IMAGE_SIZE →
      (subImageMatrix ((rowsIterator : Int) * (IMAGE_SIZE : Int))
          ((columnsIterator : Int) * (IMAGE_SIZE : Int)) IMAGE_SIZE
          (columns : Int) data)[row * IMAGE_SIZE + column]? =
        some (subImagePixel ((rowsIterator : Int) * (IMAGE_SIZE : Int))
          ((columnsIterator : Int) * (IMAGE_SIZE : Int)) (columns : Int)
          data row column)) := by
  have hIS : (IMAGE_SIZE : Int) = 16 := by norm_num [IMAGE_SIZE]
  have hidx : coordinatesToIndex
      ((row : Int) + (rowsIterator : Int) * (IMAGE_SIZE : Int))
      ((column : Int) + (columnsIterator : Int) * (IMAGE_SIZE : Int))
      ((columns : Int) - 1) =
      ((column : Int) + (columnsIterator : Int) * 16 - 1) +
        ((row : Int) + (rowsIterator : Int) * 16) * ((columns : Int) - 1) * 16 := by
    unfold coordinatesToIndex
    rw [hIS]
  refine ⟨hidx, ?_, rfl, rfl, ?_⟩
  · unfold subImagePixel
    rw [hidx]
  · intro h1 h2
    exact subImageMatrix_getElem _ _ _ data row column h1 h2

/-- Closed witness for `coordinatesToIndex_formula`, discharging the local
coordinate bounds of its last conjunct at `row = 1`, `column = 2`. -/
theorem coordinatesToIndex_formula_witness :
    ((1 : Nat) < IMAGE_SIZE ∧ (2 : Nat) < IMAGE_SIZE) ∧
    (subImageMatrix (((0 : Nat) : Int) * (IMAGE_SIZE : Int))
        (((0 : Nat) : Int) * (IMAGE_SIZE : Int)) IMAGE_SIZE
        (((1 : Nat) : Int)) bufA)[1 * IMAGE_SIZE + 2]? =
      some (subImagePixel (((0 : Nat) : Int) * (IMAGE_SIZE : Int))
        (((0 : Nat) : Int) * (IMAGE_SIZE : Int)) (((1 : Nat) : Int)) bufA 1 2) := by
  have h1 : (1 : Nat) < IMAGE_SIZE := by norm_num [IMAGE_SIZE]
  have h2 : (2 : Nat) < IMAGE_SIZE := by norm_num [IMAGE_SIZE]
  exact ⟨⟨h1, h2⟩, (coordinatesToIndex_formula 0 0 1 2 1 bufA).2.2.2.2 h1 h2⟩

/-! ### Claim C10: total buffer access, never-failing binarizer -/

/-- C10: the binarizer's buffer access is total although the index formula
leaves the buffer bounds: for the cell at the grid origin, local pixel
`(0,0)` maps to `pixelIndex = -1` (byte offset `-4`, outside every
buffer), every out-of-range read (negative or past the end) behaves as a
sample not exceeding the threshold and produces entry `0`, and for every
buffer and cell position `subImage`'s matrix is defined, with
`size * size` entries, each `0` or `1`. -/
theorem subImage_total_binary (columns : Int) (data : Uint8Array) :
    (coordinatesToIndex (0 + 0 * (IMAGE_SIZE : Int)) (0 + 0 * (IMAGE_SIZE : Int))
      (columns - 1) = -1) ∧
    (uint8Get data ((-1) * 4) = none) ∧
    (subImagePixel (0 * (IMAGE_SIZE : Int)) (0 * (IMAGE_SIZE : Int))
      columns data 0 0 = 0) ∧
    (∀ (t : Nat) (i : Int), i < 0 → jsGreater (uint8Get data i) t = false) ∧
    (∀ (t : Nat) (i : Int), (data.size : Int) ≤ i →
      jsGreater (uint8Get data i) t = false) ∧
    (∀ (startX startY : Int) (size : Nat),
      (subImageMatrix startX startY size columns data).length = size * size ∧
      ∀ x ∈ subImageMatrix startX startY size columns data, x = 0 ∨ x = 1) := by
  have hneg : ∀ (t : Nat) (i : Int), i < 0 → jsGreater (uint8Get data i) t = false := by
    intro t i hi
    unfold uint8Get
    rw [if_neg (by omega)]
    rfl
  have hidx : coordinatesToIndex (0 + 0 * (IMAGE_SIZE : Int))
      (0 + 0 * (IMAGE_SIZE : Int)) (columns - 1) = -1 := by
    unfold coordinatesToIndex
    ring
  refine ⟨hidx, ?_, ?_, hneg, ?_, ?_⟩
  · unfold uint8Get
    rw [if_neg (by omega)]
  · unfold subImagePixel
    have hz : coordinatesToIndex (((0 : Nat) : Int) + 0 * (IMAGE_SIZE : Int))
        (((0 : Nat) : Int) + 0 * (IMAGE_SIZE : Int)) (columns - 1) = -1 := by
      unfold coordinatesToIndex
      push_cast
      ring
    rw [hz]
    show (if jsGreater (uint8Get data ((-1) * 4)) RGB_THRESHOLD = true then 1 else 0) = 0
    rw [hneg RGB_THRESHOLD ((-1) * 4) (by omega)]
    simp
  · intro t i hi
    unfold uint8Get
    rw [if_neg (by omega)]
    rfl
  · intro startX startY size
    exact ⟨subImageMatrix_length startX startY size columns data,
      fun x hx => mem_subImageMatrix hx⟩

/-- Closed witness for `subImage_total_binary`, discharging its
out-of-range and membership hypotheses at concrete inputs. -/
theorem subImage_total_binary_witness :
    ((-7 : Int) < 0 ∧ jsGreater (uint8Get bufA (-7)) 60 = false) ∧
    (((bufA.size : Int) ≤ 60) ∧ jsGreater (uint8Get bufA 60) 60 = false) ∧
    ((0 : Nat) ∈ subImageMatrix 0 0 1 1 bufA ∧ ((0 : Nat) = 0 ∨ (0 : Nat) = 1)) := by
  have h := subImage_total_binary 1 bufA
  refine ⟨⟨by omega, h.2.2.2.1 60 (-7) (by omega)⟩,
    ⟨by norm_num [bufA], h.2.2.2.2.1 60 60 (by norm_num [bufA])⟩,
    ⟨by decide, (h.2.2.2.2.2 0 0 1).2 0 (by decide)⟩⟩

/-! ### Claim C4: shape of every produced sample -/

theorem mem_trainPart {digit columns : Nat} {data : Uint8Array} :
    ∀ {l : List (Nat × Nat)} {c : Nat} {dm : IDigitMatrix},
    dm ∈ trainPart digit columns data l c →
    ∃ cell ∈ l, acceptedAt digit columns data cell = some dm := by
  intro l
  induction l with
  | nil =>
    intro c dm h
    simp [trainPart] at h
  | cons cell rest ih =>
    intro c dm h
    simp only [trainPart, List.mem_append] at h
    rcases h with h | h
    · refine ⟨cell, by simp, ?_⟩
      split at h
      · rwa [Option.mem_toList, Option.mem_def] at h
      · simp at h
    · obtain ⟨cell2, hc2, ha⟩ := ih h
      exact ⟨cell2, by simp [hc2], ha⟩

theorem mem_testPart {digit columns : Nat} {data : Uint8Array} :
    ∀ {l : List (Nat × Nat)} {c : Nat} {dm : IDigitMatrix},
    dm ∈ testPart digit columns data l c →
    ∃ cell ∈ l, acceptedAt digit columns data cell = some dm := by
  intro l
  induction l with
  | nil =>
    intro c dm h
    simp [testPart] at h
  | cons cell rest ih =>
    intro c dm h
    simp only [testPart, List.mem_append] at h
    rcases h with h | h
    · refine ⟨cell, by simp, ?_⟩
      split at h
      · simp at h
      · rwa [Option.mem_toList, Option.mem_def] at h
    · obtain ⟨cell2, hc2, ha⟩ := ih h
      exact ⟨cell2, by simp [hc2], ha⟩

/-- C4: every `IDigitMatrix` in a dataset built by `buildDataSet` carries
the build's label and the binarized matrix of one of the image's grid
cells: exactly `256 = CELL_SIZE * CELL_SIZE` entries, each `0` or `1`
(`1` exactly when the cell's channel-0 sample strictly exceeds
`RGB_THRESHOLD`, in row-major local order, as the final indexing conjunct
states), and at least `PIXEL_THRESHOLD = 30` entries equal to `1`. -/
theorem buildDataSet_member_shape (digit : Nat) (img : IImageData)
    (ds : IDigitDataSet)
    (_hw : IMAGE_SIZE ∣ img.width) (_hh : IMAGE_SIZE ∣ img.height)
    (hok : buildDataSet digit img = Except.ok ds) :
    ∀ dm ∈ ds.trainingSet ++ ds.testingSet,
      dm.digit = digit ∧
      dm.matrix.length = 256 ∧
      (∀ x ∈ dm.matrix, x = 0 ∨ x = 1) ∧
      30 ≤ dm.matrix.count 1 ∧
      ∃ cell ∈ cellList (img.width / IMAGE_SIZE) (img.height / IMAGE_SIZE),
        dm.matrix = subImageMatrix ((cell.2 : Int) * (IMAGE_SIZE : Int))
          ((cell.1 : Int) * (IMAGE_SIZE : Int)) IMAGE_SIZE
          ((img.height / IMAGE_SIZE : Nat) : Int) img.data ∧
        ∀ row col : Nat, row < IMAGE_SIZE → col < IMAGE_SIZE →
          dm.matrix[row * IMAGE_SIZE + col]? =
            some (subImagePixel ((cell.2 : Int) * (IMAGE_SIZE : Int))
              ((cell.1 : Int) * (IMAGE_SIZE : Int))
              ((img.height / IMAGE_SIZE : Nat) : Int) img.data row col) := by
  intro dm hdm
  have hnlt : ¬ (img.width / IMAGE_SIZE) * (img.height / IMAGE_SIZE) < DATA_SET_SIZE := by
    intro hlt
    rw [buildDataSet, if_pos hlt] at hok
    exact absurd hok (by simp)
  rw [buildDataSet_ok_eq digit img hnlt] at hok
  have hds := Except.ok.inj hok
  subst hds
  rw [List.mem_append] at hdm
  have hex : ∃ cell ∈ cellList (img.width / IMAGE_SIZE) (img.height / IMAGE_SIZE),
      acceptedAt digit (img.height / IMAGE_SIZE) img.data cell = some dm := by
    rcases hdm with h | h
    · exact mem_trainPart h
    · exact mem_testPart h
  obtain ⟨cell, hcell, hacc⟩ := hex
  rw [acceptedAt, Option.map_eq_some'] at hacc
  obtain ⟨m, hm, hdm2⟩ := hacc
  subst hdm2
  rw [cellImage] at hm
  obtain ⟨hmeq, hcount⟩ := subImage_eq_some hm
  subst hmeq
  refine ⟨rfl, ?_, ?_, hcount, cell, hcell, rfl, ?_⟩
  · show (subImageMatrix _ _ IMAGE_SIZE _ img.data).length = 256
    rw [subImageMatrix_length]
    norm_num [IMAGE_SIZE]
  · intro x hx
    exact mem_subImageMatrix hx
  · intro row col h1 h2
    exact subImageMatrix_getElem _ _ _ img.data row col h1 h2

/-- Closed witness for `buildDataSet_member_shape`: the build of `imgA`
succeeds and `dmA` is a member of its training set. -/
theorem buildDataSet_member_shape_witness :
    (IMAGE_SIZE ∣ imgA.width) ∧ (IMAGE_SIZE ∣ imgA.height) ∧
    (buildDataSet 5 imgA =
      Except.ok ⟨List.replicate 549 dmA, List.replicate 551 dmA⟩) ∧
    (dmA ∈ List.replicate 549 dmA ++ List.replicate 551 dmA) ∧
    (dmA.digit = 5 ∧
      dmA.matrix.length = 256 ∧
      (∀ x ∈ dmA.matrix, x = 0 ∨ x = 1) ∧
      30 ≤ dmA.matrix.count 1 ∧
      ∃ cell ∈ cellList (imgA.width / IMAGE_SIZE) (imgA.height / IMAGE_SIZE),
        dmA.matrix = subImageMatrix ((cell.2 : Int) * (IMAGE_SIZE : Int))
          ((cell.1 : Int) * (IMAGE_SIZE : Int)) IMAGE_SIZE
          ((imgA.height / IMAGE_SIZE : Nat) : Int) imgA.data ∧
        ∀ row col : Nat, row < IMAGE_SIZE → col < IMAGE_SIZE →
          dmA.matrix[row * IMAGE_SIZE + col]? =
            some (subImagePixel ((cell.2 : Int) * (IMAGE_SIZE : Int))
              ((cell.1 : Int) * (IMAGE_SIZE : Int))
              ((imgA.height / IMAGE_SIZE : Nat) : Int) imgA.data row col)) := by
  have h1 : IMAGE_SIZE ∣ imgA.width := ⟨1100, rfl⟩
  have h2 : IMAGE_SIZE ∣ imgA.height := ⟨1, rfl⟩
  have hmem : dmA ∈ List.replicate 549 dmA ++ List.replicate 551 dmA := by
    rw [List.mem_append]
    left
    exact List.mem_replicate.mpr ⟨by omega, rfl⟩
  exact ⟨h1, h2, build_imgA, hmem,
    buildDataSet_member_shape 5 imgA
      ⟨List.replicate 549 dmA, List.replicate 551 dmA⟩ h1 h2 build_imgA dmA hmem⟩

/-! ### Claim C2: counter advances once per cell; rejected cells skipped -/

/-- C2: in every build the 1-based position counter advances exactly once
per enumerated cell regardless of acceptance (first conjunct: the final
counter equals the full cell count for every label and every buffer), a
rejected cell is appended to neither subset, and consequently for a
(valid) 1100-cell image whose cell at 1-based grid position 3 is rejected
while all other cells are accepted, the build returns 548 training
samples and 551 testing samples, 1099 accepted samples in total. -/
theorem buildDataSet_counter_and_rejection (digit : Nat) (img : IImageData)
    (_hw : IMAGE_SIZE ∣ img.width) (_hh : IMAGE_SIZE ∣ img.height)
    (hcount : (img.width / IMAGE_SIZE) * (img.height / IMAGE_SIZE) = DATA_SET_SIZE)
    (A : List (Nat × Nat)) (c3 : Nat × Nat) (B : List (Nat × Nat))
    (hsplit : cellList (img.width / IMAGE_SIZE) (img.height / IMAGE_SIZE) =
      A ++ c3 :: B)
    (hA : A.length = 2)
    (haccA : ∀ cell ∈ A, (cellImage (img.height / IMAGE_SIZE) img.data cell).isSome)
    (hrej : cellImage (img.height / IMAGE_SIZE) img.data c3 = none)
    (haccB : ∀ cell ∈ B, (cellImage (img.height / IMAGE_SIZE) img.data cell).isSome) :
    (∀ (digit2 : Nat) (data2 : Uint8Array),
      ((cellList (img.width / IMAGE_SIZE) (img.height / IMAGE_SIZE)).foldl
        (buildStep digit2 (img.height / IMAGE_SIZE) data2) (0, [], [])).1 = 1100) ∧
    ∃ ds, buildDataSet digit img = Except.ok ds ∧
      ds.trainingSet.length = 548 ∧
      ds.testingSet.length = 551 ∧
      ds.trainingSet.length + ds.testingSet.length = 1099 := by
  have hlen : (cellList (img.width / IMAGE_SIZE) (img.height / IMAGE_SIZE)).length
      = 1100 := by
    rw [cellList_length, Nat.mul_comm]
    exact hcount
  have hB : B.length = 1097 := by
    rw [hsplit] at hlen
    simp only [List.length_append, List.length_cons] at hlen
    omega
  have hnlt : ¬ (img.width / IMAGE_SIZE) * (img.height / IMAGE_SIZE) < DATA_SET_SIZE := by
    rw [hcount]
    exact lt_irrefl _
  constructor
  · intro digit2 data2
    rw [foldl_buildStep, hlen]
  refine ⟨_, buildDataSet_ok_eq digit img hnlt, ?_⟩
  have htrA := trainPart_all_accepted digit (img.height / IMAGE_SIZE) img.data A 0 haccA
  have hteA := testPart_all_accepted digit (img.height / IMAGE_SIZE) img.data A 0 haccA
  have htrB := trainPart_all_accepted digit (img.height / IMAGE_SIZE) img.data B 3 haccB
  have hteB := testPart_all_accepted digit (img.height / IMAGE_SIZE) img.data B 3 haccB
  have h549 : TRAINING_SET_SIZE - 1 - 0 = 549 := by norm_num [TRAINING_SET_SIZE]
  have h546 : TRAINING_SET_SIZE - 1 - 3 = 546 := by norm_num [TRAINING_SET_SIZE]
  rw [h549] at htrA hteA
  rw [h546] at htrB hteB
  have hAtake : A.take 549 = A := List.take_of_length_le (by omega)
  have hAdrop : A.drop 549 = [] := List.drop_eq_nil_of_le (by omega)
  have hrejnone : acceptedAt digit (img.height / IMAGE_SIZE) img.data c3 = none := by
    rw [acceptedAt, hrej]
    rfl
  have h3lt : 2 + 1 < TRAINING_SET_SIZE := by norm_num [TRAINING_SET_SIZE]
  have htr : (trainPart digit (img.height / IMAGE_SIZE) img.data
      (cellList (img.width / IMAGE_SIZE) (img.height / IMAGE_SIZE)) 0).length = 548 := by
    rw [hsplit, trainPart_append]
    show (trainPart digit _ img.data A 0 ++
      trainPart digit _ img.data (c3 :: B) (0 + A.length)).length = 548
    rw [hA]
    show (trainPart digit _ img.data A 0 ++
      ((if 2 + 1 < TRAINING_SET_SIZE then
          (acceptedAt digit (img.height / IMAGE_SIZE) img.data c3).toList
        else []) ++ trainPart digit _ img.data B (2 + 1))).length = 548
    rw [if_pos h3lt, hrejnone, htrA, htrB, hAtake]
    simp only [List.length_append, List.length_map, List.length_take, hA, hB]
    norm_num
  have hte : (testPart digit (img.height / IMAGE_SIZE) img.data
      (cellList (img.width / IMAGE_SIZE) (img.height / IMAGE_SIZE)) 0).length = 551 := by
    rw [hsplit, testPart_append]
    show (testPart digit _ img.data A 0 ++
      testPart digit _ img.data (c3 :: B) (0 + A.length)).length = 551
    rw [hA]
    show (testPart digit _ img.data A 0 ++
      ((if 2 + 1 < TRAINING_SET_SIZE then []
        else (acceptedAt digit (img.height / IMAGE_SIZE) img.data c3).toList) ++
        testPart digit _ img.data B (2 + 1))).length = 551
    rw [if_pos h3lt, hteA, hteB, hAdrop]
    simp only [List.length_append, List.length_map, List.length_drop, List.length_nil, hB]
  exact ⟨htr, hte, by rw [htr, hte]⟩

/-! ### A concrete 1100-cell image whose grid position 3 is rejected -/

/-- Witness buffer for the rejection scenario: every byte is 255 except a
window that zeroes out exactly the reads of the cell at grid coordinates
`(columnsIterator, rowsIterator) = (1, 0)` (1-based position 3). -/
def bufB : Uint8Array :=
  ⟨1124412, fun b =>
    if 15 ≤ b / 4 % 8784 ∧ b / 4 % 8784 ≤ 30 ∧ b / 4 / 8784 ≤ 15 then 0
    else 255⟩

/-- Witness image: 32 x 8800 declared pixels, so `rows = 2`,
`columns = 550`, exactly 1100 cells. -/
def imgB : IImageData := ⟨8800, 32, bufB⟩

theorem bufB_byteAt_eq (n : Nat)
    (h : ¬(15 ≤ n / 4 % 8784 ∧ n / 4 % 8784 ≤ 30 ∧ n / 4 / 8784 ≤ 15)) :
    bufB.byteAt n = 255 := by
  show (if 15 ≤ n / 4 % 8784 ∧ n / 4 % 8784 ≤ 30 ∧ n / 4 / 8784 ≤ 15 then 0
    else 255) = 255
  rw [if_neg h]

/-- Except for the masked cell `(1, 0)` and the single out-of-range read
of cell `(0, 0)` at local pixel `(0, 0)`, every pixel of `bufB` binarizes
to 1. -/
theorem bufB_pixel_one (ci ri row col : Nat) (hci : ci < 550) (hri : ri < 2)
    (hrow : row < 16) (hcol : col < 16) (hne : ¬(ci = 1 ∧ ri = 0))
    (hz : ¬(ci = 0 ∧ ri = 0 ∧ row = 0 ∧ col = 0)) :
    subImagePixel ((ri : Int) * (IMAGE_SIZE : Int)) ((ci : Int) * (IMAGE_SIZE : Int))
      ((550 : Nat) : Int) bufB row col = 1 := by
  have hIS : (IMAGE_SIZE : Int) = 16 := by norm_num [IMAGE_SIZE]
  have hval : coordinatesToIndex ((row : Int) + (ri : Int) * (IMAGE_SIZE : Int))
      ((col : Int) + (ci : Int) * (IMAGE_SIZE : Int)) (((550 : Nat) : Int) - 1) =
      (col : Int) + (ci : Int) * 16 - 1 + ((row : Int) + (ri : Int) * 16) * 8784 := by
    unfold coordinatesToIndex
    rw [hIS]
    push_cast
    ring
  show (if jsGreater (uint8Get bufB ((coordinatesToIndex
      ((row : Int) + (ri : Int) * (IMAGE_SIZE : Int))
      ((col : Int) + (ci : Int) * (IMAGE_SIZE : Int))
      (((550 : Nat) : Int) - 1)) * 4)) RGB_THRESHOLD = true then 1 else 0) = 1
  rw [hval]
  have hcond : 0 ≤ ((col : Int) + (ci : Int) * 16 - 1 +
        ((row : Int) + (ri : Int) * 16) * 8784) * 4 ∧
      ((col : Int) + (ci : Int) * 16 - 1 +
        ((row : Int) + (ri : Int) * 16) * 8784) * 4 < ((bufB.size : Nat) : Int) := by
    have hs : bufB.size = 1124412 := rfl
    rw [hs]
    constructor <;> omega
  unfold uint8Get
  rw [if_pos hcond]
  have hmask : ¬(15 ≤ (((col : Int) + (ci : Int) * 16 - 1 +
        ((row : Int) + (ri : Int) * 16) * 8784) * 4).toNat / 4 % 8784 ∧
      (((col : Int) + (ci : Int) * 16 - 1 +
        ((row : Int) + (ri : Int) * 16) * 8784) * 4).toNat / 4 % 8784 ≤ 30 ∧
      (((col : Int) + (ci : Int) * 16 - 1 +
        ((row : Int) + (ri : Int) * 16) * 8784) * 4).toNat / 4 / 8784 ≤ 15) := by
    omega
  rw [bufB_byteAt_eq _ hmask]
  rfl

set_option maxRecDepth 8000 in
theorem bufB_accept (cell : Nat × Nat) (hmem : cell ∈ cellList 2 550)
    (hne : cell ≠ (1, 0)) : (cellImage 550 bufB cell).isSome := by
  obtain ⟨ci, ri⟩ := cell
  rw [mem_cellList] at hmem
  obtain ⟨hci, hri⟩ := hmem
  by_cases h00 : ci = 0 ∧ ri = 0
  · obtain ⟨h1, h2⟩ := h00
    subst h1
    subst h2
    decide
  · show (subImage ((ri : Int) * (IMAGE_SIZE : Int)) ((ci : Int) * (IMAGE_SIZE : Int))
      IMAGE_SIZE ((550 : Nat) : Int) bufB).isSome
    apply subImage_isSome_of_count
    have hall : ∀ x ∈ subImageMatrix ((ri : Int) * (IMAGE_SIZE : Int))
        ((ci : Int) * (IMAGE_SIZE : Int)) IMAGE_SIZE ((550 : Nat) : Int) bufB,
        x = 1 := by
      intro x hx
      unfold subImageMatrix at hx
      rw [List.mem_flatMap] at hx
      obtain ⟨row, hrow, hx⟩ := hx
      rw [List.mem_map] at hx
      obtain ⟨col, hcol, rfl⟩ := hx
      rw [List.mem_range] at hrow hcol
      have hrow16 : row < 16 := by
        have h16 : IMAGE_SIZE = 16 := rfl
        omega
      have hcol16 : col < 16 := by
        have h16 : IMAGE_SIZE = 16 := rfl
        omega
      refine bufB_pixel_one ci ri row col hci hri hrow16 hcol16 ?hne2 ?hz2
      case hne2 =>
        intro hc
        exact hne (by rw [hc.1, hc.2])
      case hz2 =>
        intro hc
        exact h00 ⟨hc.1, hc.2.1⟩
    rw [List.eq_replicate_of_mem hall, subImageMatrix_length,
      List.count_replicate_self]
    norm_num [PIXEL_THRESHOLD, IMAGE_SIZE]

set_option maxRecDepth 8000 in
theorem cellList_take3 : (cellList 2 550).take 3 = [(0, 0), (0, 1), (1, 0)] := rfl

theorem cellList_split3 : cellList 2 550 =
    [(0, 0), (0, 1)] ++ (1, 0) :: (cellList 2 550).drop 3 := by
  conv_lhs => rw [← List.take_append_drop 3 (cellList 2 550), cellList_take3]
  simp

set_option maxRecDepth 8000 in
theorem bufB_reject : cellImage 550 bufB (1, 0) = none := by
  decide

theorem bufB_acc_drop3 : ∀ cell ∈ (cellList 2 550).drop 3,
    (cellImage 550 bufB cell).isSome := by
  intro cell hc
  have hmem := List.mem_of_mem_drop hc
  have hnin : (1, 0) ∉ (cellList 2 550).drop 3 := by
    have hnd := cellList_nodup 2 550
    rw [← List.take_append_drop 3 (cellList 2 550), List.nodup_append] at hnd
    refine hnd.2.2 ?_
    rw [cellList_take3]
    simp
  refine bufB_accept cell hmem ?_
  intro he
  rw [he] at hc
  exact hnin hc

/-- Closed witness for `buildDataSet_counter_and_rejection` at `imgB`:
a 1100-cell image in which exactly the cell at 1-based grid position 3 is
rejected by the binarizer. -/
theorem buildDataSet_counter_and_rejection_witness :
    (IMAGE_SIZE ∣ imgB.width) ∧ (IMAGE_SIZE ∣ imgB.height) ∧
    ((imgB.width / IMAGE_SIZE) * (imgB.height / IMAGE_SIZE) = DATA_SET_SIZE) ∧
    (cellList (imgB.width / IMAGE_SIZE) (imgB.height / IMAGE_SIZE) =
      [(0, 0), (0, 1)] ++ (1, 0) :: (cellList 2 550).drop 3) ∧
    (([(0, 0), (0, 1)] : List (Nat × Nat)).length = 2) ∧
    (∀ cell ∈ ([(0, 0), (0, 1)] : List (Nat × Nat)),
      (cellImage (imgB.height / IMAGE_SIZE) imgB.data cell).isSome) ∧
    (cellImage (imgB.height / IMAGE_SIZE) imgB.data (1, 0) = none) ∧
    (∀ cell ∈ (cellList 2 550).drop 3,
      (cellImage (imgB.height / IMAGE_SIZE) imgB.data cell).isSome) ∧
    (∃ ds, buildDataSet 9 imgB = Except.ok ds ∧
      ds.trainingSet.length = 548 ∧
      ds.testingSet.length = 551 ∧
      ds.trainingSet.length + ds.testingSet.length = 1099) := by
  have h1 : IMAGE_SIZE ∣ imgB.width := ⟨2, rfl⟩
  have h2 : IMAGE_SIZE ∣ imgB.height := ⟨550, rfl⟩
  have h3 : (imgB.width / IMAGE_SIZE) * (imgB.height / IMAGE_SIZE) = DATA_SET_SIZE := by
    norm_num [imgB, IMAGE_SIZE, DATA_SET_SIZE]
  have h4 : cellList (imgB.width / IMAGE_SIZE) (imgB.height / IMAGE_SIZE) =
      [(0, 0), (0, 1)] ++ (1, 0) :: (cellList 2 550).drop 3 := cellList_split3
  have h5 : ([(0, 0), (0, 1)] : List (Nat × Nat)).length = 2 := rfl
  have h6 : ∀ cell ∈ ([(0, 0), (0, 1)] : List (Nat × Nat)),
      (cellImage (imgB.height / IMAGE_SIZE) imgB.data cell).isSome := by
    intro cell hc
    rcases List.mem_pair.mp hc with rfl | rfl
    · exact bufB_accept (0, 0) (mem_cellList.mpr (by decide)) (by decide)
    · exact bufB_accept (0, 1) (mem_cellList.mpr (by decide)) (by decide)
  have h7 : cellImage (imgB.height / IMAGE_SIZE) imgB.data (1, 0) = none :=
    bufB_reject
  have h8 : ∀ cell ∈ (cellList 2 550).drop 3,
      (cellImage (imgB.height / IMAGE_SIZE) imgB.data cell).isSome :=
    bufB_acc_drop3
  exact ⟨h1, h2, h3, h4, h5, h6, h7, h8,
    (buildDataSet_counter_and_rejection 9 imgB h1 h2 h3
      [(0, 0), (0, 1)] (1, 0) ((cellList 2 550).drop 3) h4 h5 h6 h7 h8).2⟩
